import Mathlib

/-!
Shallow embedding of `h2-ping` (crepererum/h2-ping), files
`src/transport.rs` and `src/main.rs`, together with proofs about the
claims of the specification.

Conventions of the embedding:
* Rust `std::io::Error` values and `h2::Error` values are abstract and
  represented as `String` payloads.
* `anyhow::Error` with its `.context(label)` chaining is the inductive
  `AErr` below: `AErr.base e` is a bare error, `AErr.ctx label e` is the
  result of `.context(label)`.
* Asynchronous `poll_*` methods return `Poll (Except IOErr α)`; the
  behaviour of the external OS / TLS streams is an uninterpreted bundle
  of response functions (`StreamOps`), since the spec treats those
  engines as external collaborators.
* Durations are natural numbers (an abstract clock).
-/

/-- Abstract I/O error payload (`std::io::Error`, rustls errors, ...). -/
abbrev IOErr : Type := String

/-- Abstract `h2::Error` payload. -/
abbrev H2Err : Type := String

/-- `anyhow::Error`: either a bare source error or an error wrapped by
`.context(label)`. -/
inductive AErr : Type where
  | base (e : String)
  | ctx (label : String) (e : AErr)
deriving DecidableEq

/-- `std::task::Poll`. -/
inductive Poll (α : Type) : Type where
  | ready (a : α)
  | pending
deriving DecidableEq

/-- The response behaviour of an external bidirectional byte stream: what
each `poll_*` call returns for a given task context (abstracted as `Nat`)
and arguments. This models the tokio `AsyncRead`/`AsyncWrite` surface of
the inner streams, which are external to this crate. -/
structure StreamOps : Type where
  poll_read : Nat → Nat → Poll (Except IOErr Unit)
  poll_write : Nat → List Nat → Poll (Except IOErr Nat)
  poll_flush : Nat → Poll (Except IOErr Unit)
  poll_shutdown : Nat → Poll (Except IOErr Unit)

/-- `tokio::net::TcpStream`: external stream behaviour plus the
`TCP_NODELAY` flag that `set_nodelay` manipulates. -/
structure TcpStream : Type where
  ops : StreamOps
  nodelay : Bool

/-- `tokio_rustls::client::TlsStream<TcpStream>`: external stream
behaviour (the TLS engine internals are out of scope). -/
structure TlsStream : Type where
  ops : StreamOps

/-- `transport.rs`, `enum Transport`: tagged union with exactly the two
variants `Plain` and `Tls`. -/
inductive Transport : Type where
  | Plain (inner : TcpStream)
  | Tls (inner : TlsStream)

namespace Transport

/-- `transport.rs` lines 46-57: `AsyncRead::poll_read` forwards to the
populated variant. -/
def poll_read : Transport → Nat → Nat → Poll (Except IOErr Unit)
  | .Plain inner, cx, buf => inner.ops.poll_read cx buf
  | .Tls inner, cx, buf => inner.ops.poll_read cx buf

/-- `transport.rs` lines 61-71: `AsyncWrite::poll_write` forwards to the
populated variant. -/
def poll_write : Transport → Nat → List Nat → Poll (Except IOErr Nat)
  | .Plain inner, cx, buf => inner.ops.poll_write cx buf
  | .Tls inner, cx, buf => inner.ops.poll_write cx buf

/-- `transport.rs` lines 73-79: `AsyncWrite::poll_flush` forwards to the
populated variant. -/
def poll_flush : Transport → Nat → Poll (Except IOErr Unit)
  | .Plain inner, cx => inner.ops.poll_flush cx
  | .Tls inner, cx => inner.ops.poll_flush cx

/-- `transport.rs` lines 81-87: `AsyncWrite::poll_shutdown` forwards to
the populated variant. -/
def poll_shutdown : Transport → Nat → Poll (Except IOErr Unit)
  | .Plain inner, cx => inner.ops.poll_shutdown cx
  | .Tls inner, cx => inner.ops.poll_shutdown cx

end Transport

/-- Rust `str::split(sep)` on a character list: splits at every
occurrence of `sep`, keeping empty pieces; splitting the empty string
yields one empty piece (Rust semantics). -/
def rustSplit (sep : Char) : List Char → List (List Char)
  | [] => [[]]
  | c :: rest =>
    let r := rustSplit sep rest
    if c = sep then
      [] :: r
    else
      match r with
      | [] => [[c]]
      | p :: ps => (c :: p) :: ps

/-- `transport.rs` line 97: `cfg.addr.split(':').next()` — the host
portion handed to server-name validation. -/
def hostOf (addr : List Char) : Option (List Char) :=
  (rustSplit ':' addr).head?

/-- `rustls::ServerName` (opaque, produced by the external TLS engine). -/
structure ServerName : Type where
  name : List Char
deriving DecidableEq

/-- `rustls::RootCertStore` contents (opaque token; built from the
webpki trust anchors, whose internals are out of scope). -/
def RootStore : Type := Nat

/-- `rustls::ClientConfig` as far as this crate configures it: the root
store and the ALPN protocol list (`config.alpn_protocols`). -/
structure ClientConfig : Type where
  roots : RootStore
  alpn_protocols : List (List Nat)

/-- The bytes of the ALPN identifier `b"h2"`. -/
def h2Bytes : List Nat := [104, 50]

/-- `TransportCLIConfig` (transport.rs lines 19-28). -/
structure TransportCLIConfig : Type where
  tls : Bool
  addr : List Char

/-- Behaviour of the external world as observed by `setup_transport`:
TCP connect, `set_nodelay`, the webpki root store, `ServerName::try_from`
and the TLS connector. Each is an uninterpreted response function. -/
structure NetWorld : Type where
  tcpConnect : List Char → Except IOErr TcpStream
  setNodelayRes : TcpStream → Except IOErr Unit
  webpkiRootStore : RootStore
  serverNameTryFrom : List Char → Except IOErr ServerName
  tlsConnect : ClientConfig → ServerName → TcpStream → Except IOErr TlsStream

/-- `transport.rs` lines 90-126, `setup_transport`: connect, set
`TCP_NODELAY`, then either return the `Plain` variant or run the TLS
handshake (advertising ALPN `h2`) and return the `Tls` variant. Error
contexts mirror the `.context(...)` labels of the source. -/
def setup_transport (w : NetWorld) (cfg : TransportCLIConfig) : Except AErr Transport :=
  match w.tcpConnect cfg.addr with
  | .error e => .error (.ctx "TCP connect" (.base e))
  | .ok tcp0 =>
    match w.setNodelayRes tcp0 with
    | .error e => .error (.ctx "set TCP_NODELAY" (.base e))
    | .ok _ =>
      let tcp : TcpStream := { tcp0 with nodelay := true }
      if cfg.tls then
        match hostOf cfg.addr with
        | none => .error (.ctx "invalid host-port" (.base "NoneError"))
        | some host =>
          match w.serverNameTryFrom host with
          | .error e => .error (.ctx "hostname parsing" (.base e))
          | .ok server_name =>
            let config : ClientConfig :=
              { roots := w.webpkiRootStore, alpn_protocols := [h2Bytes] }
            match w.tlsConnect config server_name tcp with
            | .error e => .error (.ctx "TLS connect" (.base e))
            | .ok tls_stream => .ok (.Tls tls_stream)
      else
        .ok (.Plain tcp)

/-!
Model of `main.rs` lines 56-101: the spawned Session Driver Task, the
Measurement Loop (`looper`) and the Shutdown Coordinator (the
`futures::select!` at lines 88-93 plus lines 96-100).
-/

/-- Observable events of one run, in the order they happen. -/
inductive Event : Type where
  | pingIssued (round : Nat)
  | pongLogged (round : Nat) (d : Nat)
  | loopStopped
  | cancelSet
  | driverAwaited
deriving DecidableEq

/-- Terminal outcome of `main`: `Ok(())` (exit status 0), `Err(e)`
(non-zero exit with error chain `e`), or a panic (non-zero exit without
an error chain — here only from `Result::unwrap_err` on an `Ok`). -/
inductive ProcExit : Type where
  | ok
  | err (e : AErr)
  | panicked
deriving DecidableEq

/-- The driver future of `main.rs` line 59:
`connection.await.context("connection driver")`. Its argument is the
terminal result of the external `h2` connection driver. -/
def driverFut : Except H2Err Unit → Except AErr Unit
  | .error e => .error (.ctx "connection driver" (.base e))
  | .ok _ => .ok ()

/-- Which branch of the `tokio::select!` inside the spawned task
(`main.rs` lines 61-64) becomes ready first: the Cancellation Signal, or
the driver reaching its terminal result. -/
inductive DriverWord : Type where
  | cancelledFirst
  | driverFirst (r : Except H2Err Unit)

/-- The spawned Session Driver Task (`main.rs` lines 58-66): races the
Cancellation Signal against the driver; cancellation yields `Ok(())`,
the driver branch yields the driver's own (context-annotated) result. -/
def driverTask : DriverWord → Except AErr Unit
  | .cancelledFirst => .ok ()
  | .driverFirst r => driverFut r

/-- `usize::MAX` on the 64-bit targets this tool runs on. -/
def USIZE_MAX : Nat := 2 ^ 64 - 1

/-- The Measurement Loop (`main.rs` lines 70-84), run with `n` remaining
rounds starting at round index `i`. `pings j` is the outcome of the
`j`-th `ping_pong.ping(...)` await: acknowledged after duration `d`, or
an `h2` error. Returns the event sequence, the list of
`(round, duration)` measurements logged as `pong`, and the looper's own
result (`Ok(())` or the ping error with context `"ping pong"`). -/
def loopRun (pings : Nat → Except H2Err Nat) :
    Nat → Nat → List Event × List (Nat × Nat) × Except AErr Unit
  | 0, _ => ([], [], .ok ())
  | n + 1, i =>
    match pings i with
    | .error e => ([.pingIssued i], [], .error (.ctx "ping pong" (.base e)))
    | .ok d =>
      let rest := loopRun pings n (i + 1)
      (.pingIssued i :: .pongLogged i d :: rest.1,
       (i, d) :: rest.2.1,
       rest.2.2)

/-- Events of a list of completed rounds. -/
def roundEvents : List (Nat × Nat) → List Event
  | [] => []
  | (i, d) :: rest => .pingIssued i :: .pongLogged i d :: roundEvents rest

/-- One run's environment: the CLI `--count` argument, the outcome of
each ping, whether/when the `h2` connection driver reaches its terminal
result (`some (k, r)`: terminal with result `r` after `k` rounds of the
loop have completed and before round `k + 1` completes; `none`: the
driver is still running when the coordinator acts), and — for the case
where, after cancellation, both branches of the task's inner select are
ready — which branch the scheduler picks (`innerPick = true` picks the
cancellation branch). -/
structure MainEnv : Type where
  countArg : Option Nat
  pings : Nat → Except H2Err Nat
  driverTerm : Option (Nat × Except H2Err Unit)
  innerPick : Bool

/-- Measurements produced by the Measurement Loop for this environment
(`count = args.count.unwrap_or(usize::MAX)`, `main.rs` line 69). -/
def measOf (env : MainEnv) : List (Nat × Nat) :=
  (loopRun env.pings (env.countArg.getD USIZE_MAX) 0).2.1

/-- `main.rs` lines 88-101. If the driver task finishes first (its
terminal point `k` lies strictly before the looper completes), the
`driver_handle` arm runs `return Err(e.unwrap_err().into())`; since the
spawned task returns normally, `e` is `Ok(task result)`, and
`unwrap_err` on an `Ok` panics. Otherwise the looper arm wins, its
result is bound to `_` and discarded, the Cancellation Signal is set,
and `driver_handle.await??` propagates the task's result (first `?`:
join — always `Ok` since the task never panics; second `?`: the task's
own `Result`). -/
def runMain (env : MainEnv) : List Event × ProcExit :=
  let count := env.countArg.getD USIZE_MAX
  let looper := loopRun env.pings count 0
  match env.driverTerm with
  | some (k, r) =>
    if k < looper.2.1.length then
      (roundEvents (looper.2.1.take k), .panicked)
    else
      let word : DriverWord := if env.innerPick then .cancelledFirst else .driverFirst r
      match driverTask word with
      | .ok _ => (looper.1 ++ [.loopStopped, .cancelSet, .driverAwaited], .ok)
      | .error e => (looper.1 ++ [.loopStopped, .cancelSet, .driverAwaited], .err e)
  | none =>
    match driverTask .cancelledFirst with
    | .ok _ => (looper.1 ++ [.loopStopped, .cancelSet, .driverAwaited], .ok)
    | .error e => (looper.1 ++ [.loopStopped, .cancelSet, .driverAwaited], .err e)

/-! ## Helper lemmas -/

/-- `rustSplit` never yields the empty list of pieces. -/
theorem rustSplit_ne_nil (sep : Char) : ∀ s : List Char, rustSplit sep s ≠ [] := by
  intro s
  induction s with
  | nil => simp [rustSplit]
  | cons c rest ih =>
    simp only [rustSplit]
    by_cases h : c = sep
    · simp [h]
    · rw [if_neg h]
      cases hr : rustSplit sep rest with
      | nil => simp
      | cons p ps => simp

/-- The first piece of `rustSplit` is the prefix before the first
separator (the whole string when the separator is absent). -/
theorem rustSplit_head (sep : Char) :
    ∀ s : List Char, (rustSplit sep s).head? = some (s.takeWhile (fun c => c != sep)) := by
  intro s
  induction s with
  | nil => simp [rustSplit, List.takeWhile]
  | cons c rest ih =>
    simp only [rustSplit, List.takeWhile]
    by_cases h : c = sep
    · subst h
      simp
    · have hb : (c != sep) = true := by simp [h]
      rw [if_neg h, hb]
      cases hr : rustSplit sep rest with
      | nil => exact absurd hr (rustSplit_ne_nil sep rest)
      | cons p ps =>
        rw [hr] at ih
        simp only [List.head?] at ih ⊢
        simp only [Option.some.injEq] at ih
        simp [ih]

/-- `hostOf` always succeeds and yields the prefix before the first `:`. -/
theorem hostOf_eq (addr : List Char) :
    hostOf addr = some (addr.takeWhile (fun c => c != ':')) :=
  rustSplit_head ':' addr

/-- `AErr.ctx` values with different labels differ. -/
theorem ctx_label_ne {a b : String} {e f : AErr} (h : a ≠ b) :
    AErr.ctx a e ≠ AErr.ctx b f := by
  intro hh
  injection hh with h1 _
  exact h h1

/-! ## Claim theorems: transport layer -/

/-- Claim C6: every read, write and shutdown operation on a `Plain`
transport returns exactly what the same operation on the wrapped raw
stream returns — the `Transport` layer adds no observable behaviour. -/
theorem plain_transport_transparent (inner : TcpStream) (cx buf : Nat) (data : List Nat) :
    (Transport.Plain inner).poll_read cx buf = inner.ops.poll_read cx buf ∧
    (Transport.Plain inner).poll_write cx data = inner.ops.poll_write cx data ∧
    (Transport.Plain inner).poll_shutdown cx = inner.ops.poll_shutdown cx :=
  ⟨rfl, rfl, rfl⟩

/-- Claim C10: the `Transport` also exposes a flush operation, and for
both the `Plain` and the `Tls` variant it forwards flush unchanged to
the inner stream. -/
theorem flush_forwards_both_variants (tcp : TcpStream) (tls : TlsStream) (cx : Nat) :
    (Transport.Plain tcp).poll_flush cx = tcp.ops.poll_flush cx ∧
    (Transport.Tls tls).poll_flush cx = tls.ops.poll_flush cx :=
  ⟨rfl, rfl⟩

/-- Claim C9: host extraction always succeeds — splitting on `:` yields a
first element for every address (so the `"invalid host-port"` error
branch of `setup_transport` is unreachable), and the host handed to
server-name validation is the substring before the first `:` (the whole
string when no `:` is present). -/
theorem host_extraction_total (addr : List Char) (w : NetWorld) (cfg : TransportCLIConfig) :
    rustSplit ':' addr ≠ [] ∧
    hostOf addr = some (addr.takeWhile (fun c => c != ':')) ∧
    ∀ e : AErr, setup_transport w cfg ≠ .error (.ctx "invalid host-port" e) := by
  refine ⟨rustSplit_ne_nil ':' addr, hostOf_eq addr, ?_⟩
  intro e h
  rcases hc : w.tcpConnect cfg.addr with e1 | tcp0
  · simp [setup_transport, hc] at h
  rcases hn : w.setNodelayRes tcp0 with e2 | u
  · simp [setup_transport, hc, hn] at h
  by_cases ht : cfg.tls
  · rcases hs : w.serverNameTryFrom (cfg.addr.takeWhile fun c => c != ':') with e3 | sn
    · simp [setup_transport, hc, hn, ht, hostOf_eq, hs] at h
    rcases htl : w.tlsConnect
        { roots := w.webpkiRootStore, alpn_protocols := [h2Bytes] } sn
        { ops := tcp0.ops, nodelay := true } with e4 | tls
    · simp [setup_transport, hc, hn, ht, hostOf_eq, hs, htl] at h
    · simp [setup_transport, hc, hn, ht, hostOf_eq, hs, htl] at h
  · simp [setup_transport, hc, hn, ht] at h

/-- Claim C5: `setup_transport` opens the raw connection first (failing
with the `"TCP connect"` context on any I/O error), uses the stream with
`TCP_NODELAY` set from then on, returns it wrapped as `Plain` when the
encryption flag is off, and when the flag is on advertises exactly the
one ALPN identifier `h2` (bytes `[104, 50]`) in the client config handed
to the TLS connector and returns the handshaken stream wrapped as
`Tls`. -/
theorem setup_transport_spec (w : NetWorld) (cfg : TransportCLIConfig) :
    (∀ e, w.tcpConnect cfg.addr = .error e →
      setup_transport w cfg = .error (.ctx "TCP connect" (.base e))) ∧
    (∀ tcp0, w.tcpConnect cfg.addr = .ok tcp0 → w.setNodelayRes tcp0 = .ok () →
      cfg.tls = false →
      setup_transport w cfg = .ok (.Plain { tcp0 with nodelay := true })) ∧
    (∀ tcp0, w.tcpConnect cfg.addr = .ok tcp0 → w.setNodelayRes tcp0 = .ok () →
      cfg.tls = true →
      ∀ sn, w.serverNameTryFrom (cfg.addr.takeWhile fun c => c != ':') = .ok sn →
      ∀ tls, w.tlsConnect { roots := w.webpkiRootStore, alpn_protocols := [h2Bytes] } sn
          { tcp0 with nodelay := true } = .ok tls →
      setup_transport w cfg = .ok (.Tls tls)) ∧
    h2Bytes = [104, 50] ∧
    ∀ roots, (ClientConfig.mk roots [h2Bytes]).alpn_protocols.length = 1 := by
  refine ⟨?_, ?_, ?_, rfl, fun _ => rfl⟩
  · intro e hc
    simp [setup_transport, hc]
  · intro tcp0 hc hn ht
    simp [setup_transport, hc, hn, ht]
  · intro tcp0 hc hn ht sn hs tls htl
    simp [setup_transport, hc, hn, ht, hostOf_eq, hs, htl]

/-! ## Lemmas about the Measurement Loop -/

/-- The loop emits only probe events: neither the coordinator's
`cancelSet` nor `loopStopped` ever appears among its events. -/
theorem control_not_mem_loopRun (pings : Nat → Except H2Err Nat) :
    ∀ n i, Event.cancelSet ∉ (loopRun pings n i).1 ∧
      Event.loopStopped ∉ (loopRun pings n i).1 := by
  intro n
  induction n with
  | zero => intro i; simp [loopRun]
  | succ n ih =>
    intro i
    cases hp : pings i with
    | error e => simp [loopRun, hp]
    | ok d =>
      have := ih (i + 1)
      simp only [loopRun, hp]
      simp [this.1, this.2]

/-- `roundEvents` contains only probe events. -/
theorem control_not_mem_roundEvents :
    ∀ l : List (Nat × Nat), Event.cancelSet ∉ roundEvents l ∧
      Event.loopStopped ∉ roundEvents l := by
  intro l
  induction l with
  | nil => simp [roundEvents]
  | cons p rest ih =>
    obtain ⟨i, d⟩ := p
    simp [roundEvents, ih.1, ih.2]

/-- When every probe is acknowledged, the loop performs all `n` rounds:
its events, measurements and result are fully determined. -/
theorem loopRun_allOk (pings : Nat → Except H2Err Nat) (d : Nat → Nat)
    (h : ∀ i, pings i = .ok (d i)) :
    ∀ n i, loopRun pings n i =
      (roundEvents ((List.range' i n).map fun j => (j, d j)),
       (List.range' i n).map (fun j => (j, d j)), Except.ok ()) := by
  intro n
  induction n with
  | zero => intro i; simp [loopRun, List.range', roundEvents]
  | succ n ih =>
    intro i
    simp only [loopRun, h i]
    rw [ih (i + 1)]
    simp [List.range', roundEvents]

/-- Probe-issuance events. -/
def isPing : Event → Bool
  | .pingIssued _ => true
  | _ => false

/-- Each completed round contributes exactly one probe issuance. -/
theorem countP_roundEvents (l : List (Nat × Nat)) :
    (roundEvents l).countP isPing = l.length := by
  induction l with
  | nil => rfl
  | cons p rest ih =>
    obtain ⟨i, d⟩ := p
    simp [roundEvents, List.countP_cons, isPing, ih]

/-! ## Claim theorems: coordination in `main` -/

/-- Claim C3: with a configured count `n`, every probe acknowledged and
the driver never reaching its terminal state, the run issues exactly `n`
probes, logs exactly the measurements for rounds `0, 1, ..., n-1` in
increasing round order, and `main` returns `Ok` (exit status 0). -/
theorem bounded_run_ok (env : MainEnv) (n : Nat) (d : Nat → Nat)
    (hc : env.countArg = some n)
    (hp : ∀ i, env.pings i = .ok (d i))
    (hd : env.driverTerm = none) :
    (runMain env).1.countP isPing = n ∧
    measOf env = (List.range n).map (fun j => (j, d j)) ∧
    (measOf env).map Prod.fst = List.range n ∧
    (runMain env).2 = ProcExit.ok := by
  have hl := loopRun_allOk env.pings d hp n 0
  have hmeas : measOf env = (List.range n).map (fun j => (j, d j)) := by
    unfold measOf
    rw [hc]
    show (loopRun env.pings n 0).2.1 = _
    rw [hl, List.range_eq_range']
  refine ⟨?_, hmeas, ?_, ?_⟩
  · have htrace : (runMain env).1 =
        (loopRun env.pings n 0).1 ++ [.loopStopped, .cancelSet, .driverAwaited] := by
      simp only [runMain, hd, hc]
      rfl
    rw [htrace, List.countP_append, hl]
    have h2 : List.countP isPing [Event.loopStopped, Event.cancelSet, Event.driverAwaited] = 0 :=
      rfl
    rw [h2, countP_roundEvents]
    simp
  · rw [hmeas, List.map_map]
    have hcomp : (Prod.fst ∘ fun j : Nat => (j, d j)) = id := rfl
    rw [hcomp, List.map_id]
  · simp only [runMain, hd]
    rfl

/-- Environments used by concrete evaluations and witnesses. -/
def envHappy : MainEnv :=
  { countArg := some 3, pings := fun i => .ok (i + 1), driverTerm := none, innerPick := true }

def envEmpty : MainEnv :=
  { countArg := some 0, pings := fun i => .ok (i + 1), driverTerm := none, innerPick := true }

/-- Witness for C3 at `n = 3` and at `n = 0`. -/
theorem bounded_run_ok_witness :
    ((runMain envHappy).1.countP isPing = 3 ∧
      measOf envHappy = (List.range 3).map (fun j => (j, j + 1)) ∧
      (measOf envHappy).map Prod.fst = List.range 3 ∧
      (runMain envHappy).2 = ProcExit.ok) ∧
    ((runMain envEmpty).1.countP isPing = 0 ∧
      measOf envEmpty = (List.range 0).map (fun j => (j, j + 1)) ∧
      (measOf envEmpty).map Prod.fst = List.range 0 ∧
      (runMain envEmpty).2 = ProcExit.ok) :=
  ⟨bounded_run_ok envHappy 3 (fun i => i + 1) rfl (fun _ => rfl) rfl,
   bounded_run_ok envEmpty 0 (fun i => i + 1) rfl (fun _ => rfl) rfl⟩

/-- Claim C4: when the Cancellation Signal is set (it appears in the
trace, so the looper arm won the race) and it becomes observable before
the driver's own terminal state (the driver never terminates, or the
scheduler picks the cancellation branch), the spawned task returns
`Ok(())` and the whole process exits with status 0. -/
theorem cancellation_is_ok (env : MainEnv)
    (hset : Event.cancelSet ∈ (runMain env).1)
    (hbefore : env.driverTerm = none ∨ env.innerPick = true) :
    driverTask .cancelledFirst = .ok () ∧ (runMain env).2 = ProcExit.ok := by
  refine ⟨rfl, ?_⟩
  cases hd : env.driverTerm with
  | none => simp [runMain, hd, driverTask]
  | some kr =>
    obtain ⟨k, r⟩ := kr
    have hpick : env.innerPick = true := by
      rcases hbefore with h | h
      · rw [hd] at h; exact absurd h (by simp)
      · exact h
    by_cases hk : k < (loopRun env.pings (env.countArg.getD USIZE_MAX) 0).2.1.length
    · exfalso
      simp only [runMain, hd, hk, if_true] at hset
      exact (control_not_mem_roundEvents _).1 hset
    · simp [runMain, hd, hk, hpick, driverTask]

def envCancel : MainEnv :=
  { countArg := some 1, pings := fun i => .ok (i + 1), driverTerm := none, innerPick := true }

/-- Witness for C4. -/
theorem cancellation_is_ok_witness :
    driverTask .cancelledFirst = .ok () ∧ (runMain envCancel).2 = ProcExit.ok :=
  cancellation_is_ok envCancel (by decide) (Or.inl rfl)

/-- Claim C8: whenever the Cancellation Signal is set during a run, it is
set immediately after the Measurement Loop has stopped and before the
driver task is awaited; no cancellation and no loop stop occur earlier
in the trace, so no in-flight probe is ever interrupted by
cancellation. -/
theorem cancel_only_after_loop (env : MainEnv)
    (hset : Event.cancelSet ∈ (runMain env).1) :
    ∃ pre, (runMain env).1 = pre ++ [.loopStopped, .cancelSet, .driverAwaited] ∧
      Event.cancelSet ∉ pre ∧ Event.loopStopped ∉ pre := by
  cases hd : env.driverTerm with
  | none =>
    refine ⟨(loopRun env.pings (env.countArg.getD USIZE_MAX) 0).1, ?_, ?_, ?_⟩
    · simp only [runMain, hd]
      rfl
    · exact (control_not_mem_loopRun env.pings _ 0).1
    · exact (control_not_mem_loopRun env.pings _ 0).2
  | some kr =>
    obtain ⟨k, r⟩ := kr
    by_cases hk : k < (loopRun env.pings (env.countArg.getD USIZE_MAX) 0).2.1.length
    · exfalso
      simp only [runMain, hd, hk, if_true] at hset
      exact (control_not_mem_roundEvents _).1 hset
    · refine ⟨(loopRun env.pings (env.countArg.getD USIZE_MAX) 0).1, ?_, ?_, ?_⟩
      · cases hw : driverTask
            (if env.innerPick then .cancelledFirst else .driverFirst r) with
        | ok u => simp [runMain, hd, hk, hw]
        | error e => simp [runMain, hd, hk, hw]
      · exact (control_not_mem_loopRun env.pings _ 0).1
      · exact (control_not_mem_loopRun env.pings _ 0).2

/-- Witness for C8. -/
theorem cancel_only_after_loop_witness :
    ∃ pre, (runMain envHappy).1 = pre ++ [.loopStopped, .cancelSet, .driverAwaited] ∧
      Event.cancelSet ∉ pre ∧ Event.loopStopped ∉ pre :=
  cancel_only_after_loop envHappy (by decide)

/-- No `--count` argument, every probe acknowledged, driver healthy. -/
def envNoCount : MainEnv :=
  { countArg := none, pings := fun _ => .ok 1, driverTerm := none, innerPick := true }

/-- Claim C7 counterexample: with no round count configured and every
probe acknowledged, it is not the case that the run performs more than
`k` rounds for every natural number `k` — `main.rs` line 69 substitutes
the finite bound `usize::MAX`, so the loop does have a finite upper
bound on its number of rounds. -/
theorem no_count_not_unbounded :
    ¬ ∀ k : Nat, k < (measOf envNoCount).length :=
  fun h => Nat.lt_irrefl _ (h (measOf envNoCount).length)

/-- Claim C7 (amended): with no round count configured, an all-success
run performs exactly `usize::MAX = 2^64 - 1` rounds; in particular it
performs more than `k` rounds for every `k < 2^64 - 1`. -/
theorem no_count_runs_usize_max (env : MainEnv) (d : Nat → Nat)
    (hc : env.countArg = none)
    (hp : ∀ i, env.pings i = .ok (d i)) :
    (measOf env).length = USIZE_MAX ∧
      ∀ k, k < USIZE_MAX → k < (measOf env).length := by
  have hl := loopRun_allOk env.pings d hp USIZE_MAX 0
  have hlen : (measOf env).length = USIZE_MAX := by
    unfold measOf
    rw [hc]
    show (loopRun env.pings USIZE_MAX 0).2.1.length = _
    rw [hl]
    simp
  exact ⟨hlen, fun k hk => hlen ▸ hk⟩

/-- Witness for amended C7. -/
theorem no_count_runs_usize_max_witness :
    (measOf envNoCount).length = USIZE_MAX ∧
      ∀ k, k < USIZE_MAX → k < (measOf envNoCount).length :=
  no_count_runs_usize_max envNoCount (fun _ => 1) rfl (fun _ => rfl)

/-- Driver reaches its terminal state (a connection error) after round 1
while the loop still has rounds to go: the driver task finishes first. -/
def envDriverFirst : MainEnv :=
  { countArg := some 5, pings := fun i => .ok (i + 1),
    driverTerm := some (1, .error "connection reset"), innerPick := true }

/-- Claim C1, evaluated at the failing input: when the Session Driver
Task completes first, `main.rs` line 91 runs
`return Err(e.unwrap_err().into())`, but `e` is the join result and the
spawned task returned normally, so `e` is `Ok(...)` and
`Result::unwrap_err` panics — the process does not surface the driver
task's `"connection driver"` error; it dies by panic, and the loop's
result is never produced. -/
theorem driver_first_run_panics :
    (runMain envDriverFirst).2 = ProcExit.panicked ∧
    (runMain envDriverFirst).2 ≠
      ProcExit.err (.ctx "connection driver" (.base "connection reset")) := by
  exact ⟨rfl, by decide⟩

/-- The loop's very first probe fails while the driver never reaches a
terminal state of its own. -/
def envLoopFails : MainEnv :=
  { countArg := some 3, pings := fun _ => .error "ping failed",
    driverTerm := none, innerPick := true }

/-- The loop finishes its single round first; the driver then reaches an
error of its own, and the scheduler hands the task's inner select the
driver branch. -/
def envDriverErrAfter : MainEnv :=
  { countArg := some 1, pings := fun _ => .ok 1,
    driverTerm := some (1, .error "remote error"), innerPick := false }

/-- Claim C2, evaluated at the failing inputs: in the loop-finishes-first
path the looper's result is bound to `_` at `main.rs` line 89 and
discarded — a loop failure (`"ping pong"` error) yields process exit
`Ok`, not a propagated terminal error — while a driver-task error
distinct from cancellation is propagated by `driver_handle.await??` at
line 97, not masked by the loop's result. -/
theorem loop_result_discarded :
    (loopRun envLoopFails.pings 3 0).2.2 =
      .error (.ctx "ping pong" (.base "ping failed")) ∧
    (runMain envLoopFails).2 = ProcExit.ok ∧
    (runMain envDriverErrAfter).2 =
      ProcExit.err (.ctx "connection driver" (.base "remote error")) := by
  exact ⟨rfl, rfl, rfl⟩
